import Mathlib

/-!
Shallow embedding of the snapshot acquisition and local-cache pipeline of the
qlik-cloud-embed-snapshot server (the express app: `GET /get-snapshots`,
`GET /get-local-snapshots`, `saveSnapshots`, `SUPPORTED_CHARTS`).

The filesystem store `public/snapshots` is modelled as an association list
from task id (directory name) to directory contents; a directory is an
association list from file name to file contents.  Remote calls and the
fallible filesystem operations are modelled by an environment `Env` that
says, per task and artifact role, what `getSharingTaskExecutionFile` returns
(a response or a thrown error), and whether each `fs.writeFile` / `fs.rm`
succeeds.  `fs.mkdir` with `recursive: true` is modelled as always
succeeding.
-/

namespace Snap

/-- JSON values, as produced by `JSON.parse` and consumed by
`JSON.stringify`. -/
inductive Json where
  | null : Json
  | bool (b : Bool) : Json
  | num (n : Int) : Json
  | str (s : String) : Json
  | arr (elems : List Json) : Json
  | obj (fields : List (String × Json)) : Json

/-- Contents of one file on disk.  A file written by
`fs.writeFile(p, JSON.stringify(j, null, 2), "utf8")` stores the structured
value `j` (`JSON.stringify` is deterministic, so equality of stored values
models byte equality of the files); any other payload is opaque bytes. -/
inductive FileData where
  | jsonText (j : Json) : FileData
  | bin (bytes : String) : FileData

/-- A per-task directory: file name to file contents. -/
abbrev Dir := List (String × FileData)

/-- The snapshot store root: directory name (task id) to directory. -/
abbrev Store := List (String × Dir)

/-- Look a directory up by name (first match). -/
def findDir : Store → String → Option Dir
  | [], _ => none
  | (k, d) :: rest, id => if k = id then some d else findDir rest id

/-- The contents of a task's directory, empty if absent. -/
def dirOf (st : Store) (id : String) : Dir :=
  (findDir st id).getD []

/-- `fs.readFile` inside one directory. -/
def readFile : Dir → String → Option FileData
  | [], _ => none
  | (k, c) :: rest, n => if k = n then some c else readFile rest n

/-- `fs.writeFile` inside one directory: overwrite in place or append. -/
def writeFileD : Dir → String → FileData → Dir
  | [], n, c => [(n, c)]
  | (k, c0) :: rest, n, c =>
    if k = n then (n, c) :: rest else (k, c0) :: writeFileD rest n c

/-- `fs.mkdir(dir, { recursive: true })`: create the directory if absent. -/
def mkdirStore (st : Store) (id : String) : Store :=
  if (findDir st id).isSome then st else st ++ [(id, [])]

/-- Replace (or create) the directory named `id`. -/
def setDir : Store → String → Dir → Store
  | [], id, d => [(id, d)]
  | (k, d0) :: rest, id, d =>
    if k = id then (id, d) :: rest else (k, d0) :: setDir rest id d

/-- `fs.rm(dir, { recursive: true })`: drop the directory. -/
def removeDir (st : Store) (id : String) : Store :=
  st.filter (fun p => decide (p.1 ≠ id))

/-- A monitored sharing task as returned by the remote catalog.  The remote
task objects carry further fields, but only `id` and `name` are read by the
pipeline; extra fields would ride along unchanged through the metadata
spread. -/
structure Task where
  id : String
  name : String
deriving DecidableEq

/-- One response of `getSharingTaskExecutionFile`: the HTTP status, the
`content-type` header (empty string when the header is absent), the decoded
JSON body (used when the content type is JSON-typed) and the raw bytes
(used otherwise). -/
structure RemoteResp where
  status : Nat
  contentType : String
  json : Json
  bytes : String

/-- A remote fetch either throws (transport error, 404 rejection, ...) or
yields a response. -/
inductive RoleResult where
  | throws : RoleResult
  | ok (r : RemoteResp) : RoleResult

/-- The environment of one refresh: what the remote returns per task id and
artifact role, and which filesystem writes/removals succeed. -/
structure Env where
  fetch : String → String → RoleResult
  writeOk : String → String → Bool
  rmOk : String → Bool

/-- `String.toLowerCase`. -/
def jsToLower (s : String) : String := ⟨s.data.map Char.toLower⟩

/-- Does the character list start with the pattern? -/
def startsWithChars : List Char → List Char → Bool
  | _, [] => true
  | [], _ :: _ => false
  | c :: cs, p :: ps => c == p && startsWithChars cs ps

/-- Does the pattern occur anywhere in the character list? -/
def containsChars : List Char → List Char → Bool
  | [], pat => pat.isEmpty
  | c :: cs, pat => startsWithChars (c :: cs) pat || containsChars cs pat

/-- JS `String.prototype.includes`. -/
def jsIncludes (s pat : String) : Bool :=
  containsChars s.data pat.data

/-- JS truthiness of a JSON value (`NaN` does not arise here). -/
def jsTruthy : Json → Bool
  | .null => false
  | .bool b => b
  | .num n => n != 0
  | .str s => s != ""
  | .arr _ => true
  | .obj _ => true

/-- Truthiness of a property access, where `none` models `undefined`. -/
def jsTruthyOpt : Option Json → Bool
  | none => false
  | some v => jsTruthy v

/-- JS `a || b` on a property access: the value if truthy, else the
default. -/
def jsOr (o : Option Json) (d : Json) : Json :=
  match o with
  | some v => if jsTruthy v then v else d
  | none => d

/-- Property lookup in an object's field list. -/
def lookupProp : List (String × Json) → String → Option Json
  | [], _ => none
  | (k, v) :: rest, n => if k = n then some v else lookupProp rest n

/-- JS property access `j.k`: `none` models `undefined`. -/
def Json.getProp : Json → String → Option Json
  | .obj fields, k => lookupProp fields k
  | _, _ => none

/-- `JSON.parse` of a file: files written via `JSON.stringify` round-trip,
anything else fails to parse. -/
def parseJsonFile : FileData → Option Json
  | .jsonText j => some j
  | .bin _ => none

/-- The fixed set of chart types rendered interactively (source:
`SUPPORTED_CHARTS`). -/
def SUPPORTED_CHARTS : List String :=
  ["barchart", "piechart", "linechart", "mekkochart",
   "qlik-funnel-chart-ext", "qlik-sankey-chart-ext", "kpi", "bulletchart",
   "sn-org-chart", "combochart", "scatterplot", "histogram",
   "waterfallchart", "gauge", "childObject"]

/-- JS `Array.prototype.includes` of a JSON value in a string array: `===`
comparison, so only a string value can be a member. -/
def includesJson (l : List String) (v : Json) : Bool :=
  match v with
  | .str s => l.contains s
  | _ => false

/-- The mutable per-task bookkeeping of `saveSnapshots`' download loop. -/
structure Flags where
  snapshotData : Option Json
  snapshotSaved : Bool
  imageSmallSaved : Bool
  imageLargeSaved : Bool
  hasFailures : Bool

def initFlags : Flags :=
  { snapshotData := none, snapshotSaved := false, imageSmallSaved := false,
    imageLargeSaved := false, hasFailures := false }

/-- One iteration of the `for (const fileAlias of fileFormats)` loop.
When `hasFailures` is already set the loop has broken out, so the step is
the identity.  NOTE (source line 215): the source tests
`if (fileResponse.status = 200)` — an assignment, not a comparison — so the
condition is always truthy for a non-throwing response and the
"non-success HTTP status" else-branch is unreachable; the embedding
therefore takes the success branch for every non-thrown response. -/
def stepRole (e : Env) (taskId fileAlias : String) (dir : Dir) (f : Flags) :
    Dir × Flags :=
  if f.hasFailures then (dir, f)
  else
    match e.fetch taskId fileAlias with
    | .throws => (dir, { f with hasFailures := true })
    | .ok r =>
      let contentType := jsToLower r.contentType
      if jsIncludes contentType "application/json" then
        let outName := fileAlias ++ ".json"
        if e.writeOk taskId outName then
          let dir' := writeFileD dir outName (.jsonText r.json)
          if fileAlias = "snapshot" then
            (dir', { f with snapshotData := some r.json,
                            snapshotSaved := true })
          else (dir', f)
        else (dir, { f with hasFailures := true })
      else
        let outName :=
          if jsIncludes contentType "image/png" then fileAlias ++ ".png"
          else fileAlias
        if e.writeOk taskId outName then
          let dir' := writeFileD dir outName (.bin r.bytes)
          if fileAlias = "image-small" then
            (dir', { f with imageSmallSaved := true })
          else if fileAlias = "image-large" then
            (dir', { f with imageLargeSaved := true })
          else (dir', f)
        else (dir, { f with hasFailures := true })

/-- The download loop over the three artifact roles, in source order. -/
def fetchLoop (e : Env) (taskId : String) (dir : Dir) (f : Flags) :
    Dir × Flags :=
  let s1 := stepRole e taskId "snapshot" dir f
  let s2 := stepRole e taskId "image-small" s1.1 s1.2
  stepRole e taskId "image-large" s2.1 s2.2

/-- The loop bookkeeping depends only on the environment, not on the
directory contents; this is its canonical value. -/
def loopFlags (e : Env) (taskId : String) : Flags :=
  (fetchLoop e taskId [] initFlags).2

/-- The cleanup condition of source line 284:
`hasFailures or not imageSmallSaved or not imageLargeSaved or not snapshotSaved`. -/
def taskFailedB (e : Env) (taskId : String) : Bool :=
  let f := loopFlags e taskId
  f.hasFailures || !f.imageSmallSaved || !f.imageLargeSaved ||
    !f.snapshotSaved

/-- Source lines 302-306: the visualization type is taken from the snapshot
JSON payload when truthy, defaulting to `"unknown"`. -/
def visualizationOf (snapshotData : Option Json) : Json :=
  match snapshotData with
  | none => .str "unknown"
  | some j =>
    if jsTruthy j then
      match j.getProp "visualization" with
      | some v => if jsTruthy v then v else .str "unknown"
      | none => .str "unknown"
    else .str "unknown"

/-- Source lines 313-321: the enhanced metadata record.  (`displayMode` is
`"snapshot"` exactly when the visualization is in `SUPPORTED_CHARTS`.) -/
def enhancedMetadata (t : Task) (visualization : Json) (now : String) :
    Json :=
  let displayMode :=
    if includesJson SUPPORTED_CHARTS visualization then "snapshot"
    else "image"
  .obj [("id", .str t.id), ("name", .str t.name),
        ("visualization", visualization), ("imageAvailable", .bool true),
        ("snapshotAvailable", .bool true), ("displayMode", .str displayMode),
        ("lastUpdated", .str now)]

/-- The body of `saveSnapshots`' outer `for (const task of tasks)` loop.
Returns the store after the task and `some err` if an uncaught exception
escaped (only the final `fs.writeFile` of `metadata.json` is outside every
`try`). -/
def processTask (e : Env) (st : Store) (t : Task) (now : String) :
    Store × Option String :=
  let st1 := mkdirStore st t.id
  let s := fetchLoop e t.id (dirOf st1 t.id) initFlags
  let f := s.2
  if f.hasFailures || !f.imageSmallSaved || !f.imageLargeSaved ||
      !f.snapshotSaved then
    ((if e.rmOk t.id then removeDir st1 t.id else setDir st1 t.id s.1),
     none)
  else
    let visualization := visualizationOf f.snapshotData
    let enhanced := enhancedMetadata t visualization now
    if e.writeOk t.id "metadata.json" then
      (setDir st1 t.id
        (writeFileD s.1 "metadata.json" (.jsonText enhanced)), none)
    else (setDir st1 t.id s.1, some "metadata write failed")

/-- `saveSnapshots(tasks)`: process the tasks in order; an uncaught
exception aborts the remaining tasks and propagates. -/
def saveSnapshots (e : Env) (st : Store) (tasks : List Task) (now : String) :
    Store × Option String :=
  match tasks with
  | [] => (st, none)
  | t :: rest =>
    match processTask e st t now with
    | (st', none) => saveSnapshots e st' rest now
    | (st', some err) => (st', some err)

/-- One entry of either listing endpoint.  `none` in `id` / `name` models
the JS value `undefined` (the refresh endpoint reads `metadata.id` and
`metadata.name` without a default). -/
structure CatalogEntry where
  id : Option Json
  name : Option Json
  visualization : Json
  imageAvailable : Json
  snapshotAvailable : Json
  displayMode : Json

/-- The entry the `GET /get-snapshots` read-back builds from a parsed
metadata record (source lines 77-84). -/
def refreshEntryOf (metadata : Json) : CatalogEntry :=
  { id := metadata.getProp "id",
    name := metadata.getProp "name",
    visualization := jsOr (metadata.getProp "visualization") (.str "unknown"),
    imageAvailable := jsOr (metadata.getProp "imageAvailable") (.bool false),
    snapshotAvailable :=
      jsOr (metadata.getProp "snapshotAvailable") (.bool false),
    displayMode := jsOr (metadata.getProp "displayMode") (.str "image") }

/-- The entry `GET /get-local-snapshots` builds from a parsed metadata
record (source lines 143-150), with directory-name-based defaults. -/
def localEntryOf (dirName : String) (metadata : Json) : CatalogEntry :=
  { id := some (jsOr (metadata.getProp "id") (.str dirName)),
    name :=
      some (jsOr (metadata.getProp "name")
        (.str ("Snapshot " ++ dirName))),
    visualization := jsOr (metadata.getProp "visualization") (.str "unknown"),
    imageAvailable := jsOr (metadata.getProp "imageAvailable") (.bool false),
    snapshotAvailable :=
      jsOr (metadata.getProp "snapshotAvailable") (.bool false),
    displayMode := jsOr (metadata.getProp "displayMode") (.str "image") }

/-- Read and parse a directory's `metadata.json` (failure of either step is
caught and skipped by both endpoints). -/
def metaParse (d : Dir) : Option Json :=
  (readFile d "metadata.json").bind parseJsonFile

/-- The `GET /get-local-snapshots` scan over the store's subdirectories, in
store order (all store entries are directories). -/
def localSnapshotsOf (st : Store) : List CatalogEntry :=
  st.filterMap (fun p => (metaParse p.2).map (localEntryOf p.1))

/-- The `GET /get-snapshots` read-back (source lines 66-92): for each task
of the current listing, re-read its persisted metadata record from disk;
tasks whose record cannot be read or parsed are skipped. -/
def refreshReadBack (st : Store) (tasks : List Task) : List CatalogEntry :=
  tasks.filterMap
    (fun t => ((findDir st t.id).bind metaParse).map refreshEntryOf)

/-- The remote task listing (getItems plus the per-task getSharingTask
detail calls): either the full task list, or a thrown catalog-wide
error. -/
inductive TaskListing where
  | ok (tasks : List Task) : TaskListing
  | throws : TaskListing

/-- The `GET /get-snapshots` handler: status and response entries, plus the
store after the refresh (`none` models an absent store root).  Any uncaught
exception — listing failure or an escape from `saveSnapshots` — yields
status 500. -/
def getSnapshotsHandler (e : Env) (listing : TaskListing)
    (st0 : Option Store) (now : String) :
    (Nat × List CatalogEntry) × Option Store :=
  match listing with
  | .throws => ((500, []), st0)
  | .ok tasks =>
    match saveSnapshots e (st0.getD []) tasks now with
    | (st1, some _) => ((500, []), some st1)
    | (st1, none) => ((200, refreshReadBack st1 tasks), some st1)

/-- The `GET /get-local-snapshots` handler: when the store root is absent
(`fs.access` throws) it returns `[]` with the default 200 status; otherwise
it returns the scan result with status 200. -/
def getLocalSnapshotsHandler (st : Option Store) :
    Nat × List CatalogEntry :=
  match st with
  | none => (200, [])
  | some s => (200, localSnapshotsOf s)

/-- A metadata record is present in the directory. -/
def hasMetaB (d : Dir) : Bool :=
  (readFile d "metadata.json").isSome

/-- All three required artifact files exist on disk: the interactive data
as `snapshot.json`, and each image role under its PNG-suffixed or bare
name (the persisted layout per role). -/
def completeB (d : Dir) : Bool :=
  (readFile d "snapshot.json").isSome &&
    ((readFile d "image-small.png").isSome ||
      (readFile d "image-small").isSome) &&
    ((readFile d "image-large.png").isSome ||
      (readFile d "image-large").isSome)

/-- The completeness invariant for one task's directory: a metadata record
exists iff all three artifact files exist on disk. -/
def taskInv (st : Store) (id : String) : Prop :=
  hasMetaB (dirOf st id) = completeB (dirOf st id)

/-- Drop the `lastUpdated` field of a metadata object. -/
def stripLastUpdated : Json → Json
  | .obj fields => .obj (fields.filter (fun p => decide (p.1 ≠ "lastUpdated")))
  | j => j

/-- Read a JSON string value out of an entry field. -/
def jsonAsString : Json → Option String
  | .str s => some s
  | _ => none

/-! ### Concrete fixtures (tasks, environments, stores) -/

def tT1 : Task := { id := "T1", name := "Sales KPI" }

/-- Remote behaviour where every role succeeds: JSON snapshot payload with
visualization `kpi`, PNG images; all filesystem operations succeed. -/
def envAllOk : Env :=
  { fetch := fun _ fileAlias =>
      .ok { status := 200,
            contentType :=
              if fileAlias = "snapshot" then "application/json"
              else "image/png",
            json := .obj [("visualization", .str "kpi")],
            bytes := "PNGBYTES" },
    writeOk := fun _ _ => true,
    rmOk := fun _ => true }

/-- Like `envAllOk` but the snapshot payload declares the unsupported
visualization `mappng`. -/
def envMappng : Env :=
  { fetch := fun _ fileAlias =>
      .ok { status := 200,
            contentType :=
              if fileAlias = "snapshot" then "application/json"
            else "image/png",
            json := .obj [("visualization", .str "mappng")],
            bytes := "PNGBYTES" },
    writeOk := fun _ _ => true,
    rmOk := fun _ => true }

/-- Every role's response arrives with HTTP status 404 but without
throwing. -/
def env404 : Env :=
  { fetch := fun _ fileAlias =>
      .ok { status := 404,
            contentType :=
              if fileAlias = "snapshot" then "application/json"
              else "image/png",
            json := .obj [("visualization", .str "kpi")],
            bytes := "PNGBYTES" },
    writeOk := fun _ _ => true,
    rmOk := fun _ => true }

/-- Every remote fetch throws. -/
def envThrows : Env :=
  { fetch := fun _ _ => .throws,
    writeOk := fun _ _ => true,
    rmOk := fun _ => true }

/-- All fetches and artifact writes succeed, but writing `metadata.json`
fails. -/
def envMetaFail : Env :=
  { fetch := fun _ fileAlias =>
      .ok { status := 200,
            contentType :=
              if fileAlias = "snapshot" then "application/json"
              else "image/png",
            json := .obj [("visualization", .str "kpi")],
            bytes := "PNGBYTES" },
    writeOk := fun _ n => if n = "metadata.json" then false else true,
    rmOk := fun _ => true }

/-- First refresh of the rollback-failure scenario: the `image-small` role
arrives JSON-typed (so its saved-flag stays false and the transaction
fails), and the cleanup `fs.rm` fails. -/
def envRun1 : Env :=
  { fetch := fun _ fileAlias =>
      .ok { status := 200,
            contentType :=
              if fileAlias = "image-large" then "image/png"
              else "application/json",
            json := .obj [("visualization", .str "kpi")],
            bytes := "PNGBYTES" },
    writeOk := fun _ _ => true,
    rmOk := fun _ => false }

/-- Second refresh of that scenario: normal content types, but the write of
`image-large.png` throws, and the cleanup `fs.rm` fails again. -/
def envRun2 : Env :=
  { fetch := fun _ fileAlias =>
      .ok { status := 200,
            contentType :=
              if fileAlias = "snapshot" then "application/json"
              else "image/png",
            json := .obj [("visualization", .str "kpi")],
            bytes := "PNGBYTES" },
    writeOk := fun _ n => if n = "image-large.png" then false else true,
    rmOk := fun _ => false }

/-- A store holding one stale directory (no current task refers to it)
with a valid metadata record. -/
def stStale : Store :=
  [("OLD", [("metadata.json",
    .jsonText (.obj [("id", .str "OLD"), ("name", .str "Old chart")]))])]

/-- A store holding a previously committed, complete snapshot for task
`T1`. -/
def stPreT1 : Store :=
  [("T1",
    [("snapshot.json", .jsonText (.obj [("visualization", .str "kpi")])),
     ("image-small.png", .bin "PNGBYTES"),
     ("image-large.png", .bin "PNGBYTES"),
     ("metadata.json",
       .jsonText (.obj [("id", .str "T1"), ("name", .str "Sales KPI")]))])]

/-- A store with one directory whose metadata record is an empty object. -/
def storeD1 : Store := [("D1", [("metadata.json", .jsonText (.obj []))])]

/-- A directory whose `metadata.json` exists but cannot be parsed. -/
def badDir : Dir := [("metadata.json", .bin "not json")]

/-- A directory with a well-formed metadata record. -/
def goodDir (id name : String) : Dir :=
  [("metadata.json",
    .jsonText (.obj [("id", .str id), ("name", .str name)]))]

/-! ### Store and directory operation lemmas -/

theorem findDir_append {st : Store} {id : String} (Δ : Store)
    (h : findDir st id = none) : findDir (st ++ Δ) id = findDir Δ id := by
  induction st with
  | nil => rfl
  | cons p rest ih =>
    obtain ⟨k, d⟩ := p
    simp only [findDir, List.cons_append] at h ⊢
    split at h
    · exact absurd h (by simp)
    · rename_i hk
      rw [if_neg hk]
      exact ih h

theorem findDir_append_some {st : Store} {id : String} {d : Dir} (Δ : Store)
    (h : findDir st id = some d) : findDir (st ++ Δ) id = some d := by
  induction st with
  | nil => simp [findDir] at h
  | cons p rest ih =>
    obtain ⟨k, d0⟩ := p
    simp only [findDir, List.cons_append] at h ⊢
    split at h
    · rename_i hk
      rw [if_pos hk]
      exact h
    · rename_i hk
      rw [if_neg hk]
      exact ih h

theorem removeDir_of_none {st : Store} {id : String}
    (h : findDir st id = none) : removeDir st id = st := by
  induction st with
  | nil => rfl
  | cons p rest ih =>
    obtain ⟨k, d⟩ := p
    simp only [findDir] at h
    split at h
    · exact absurd h (by simp)
    · rename_i hk
      simp only [removeDir, List.filter_cons, decide_eq_true_eq, ne_eq, hk,
        not_false_iff, if_true] at ih ⊢
      rw [ih h]

theorem removeDir_append (st Δ : Store) (id : String) :
    removeDir (st ++ Δ) id = removeDir st id ++ removeDir Δ id := by
  simp [removeDir, List.filter_append]

theorem setDir_append_fresh {st : Store} {id : String} (x d : Dir)
    (h : findDir st id = none) :
    setDir (st ++ [(id, x)]) id d = st ++ [(id, d)] := by
  induction st with
  | nil => simp [setDir]
  | cons p rest ih =>
    obtain ⟨k, d0⟩ := p
    simp only [findDir] at h
    split at h
    · exact absurd h (by simp)
    · rename_i hk
      simp only [List.cons_append, setDir, if_neg hk, List.append_eq]
      rw [ih h]

theorem mkdirStore_of_none {st : Store} {id : String}
    (h : findDir st id = none) : mkdirStore st id = st ++ [(id, [])] := by
  simp [mkdirStore, h]

theorem findDir_setDir_self (st : Store) (id : String) (d : Dir) :
    findDir (setDir st id d) id = some d := by
  induction st with
  | nil => simp [setDir, findDir]
  | cons p rest ih =>
    obtain ⟨k, d0⟩ := p
    simp only [setDir]
    split
    · simp [findDir]
    · rename_i hk
      simp only [findDir, if_neg hk, ih]

theorem findDir_setDir_ne {st : Store} {id id' : String} (d : Dir)
    (h : id' ≠ id) : findDir (setDir st id d) id' = findDir st id' := by
  have hne : ¬id = id' := fun hh => h hh.symm
  induction st with
  | nil => simp [setDir, findDir, hne]
  | cons p rest ih =>
    obtain ⟨k, d0⟩ := p
    simp only [setDir]
    split
    · rename_i hk
      subst hk
      simp only [findDir, if_neg hne]
    · simp only [findDir, ih]

theorem findDir_removeDir_self (st : Store) (id : String) :
    findDir (removeDir st id) id = none := by
  induction st with
  | nil => rfl
  | cons p rest ih =>
    obtain ⟨k, d⟩ := p
    simp only [removeDir, List.filter_cons] at ih ⊢
    split
    · rename_i hk
      simp only [decide_eq_true_eq, ne_eq] at hk
      simp only [findDir, if_neg hk, ih]
    · exact ih

theorem findDir_removeDir_ne {st : Store} {id id' : String} (h : id' ≠ id) :
    findDir (removeDir st id) id' = findDir st id' := by
  induction st with
  | nil => rfl
  | cons p rest ih =>
    obtain ⟨k, d⟩ := p
    simp only [removeDir, List.filter_cons] at ih ⊢
    split
    · simp only [findDir, ih]
    · rename_i hk
      simp only [decide_eq_true_eq, ne_eq, not_not] at hk
      subst hk
      have : ¬k = id' := fun hh => h hh.symm
      simp only [findDir, if_neg this, ih]

theorem findDir_mkdirStore_ne {st : Store} {id id' : String} (h : id' ≠ id) :
    findDir (mkdirStore st id) id' = findDir st id' := by
  unfold mkdirStore
  split
  · rfl
  · cases hfd : findDir st id' with
    | some d => exact findDir_append_some _ hfd
    | none =>
      rw [findDir_append _ hfd]
      have hne : ¬id = id' := fun hh => h hh.symm
      simp [findDir, hfd, hne]

theorem dirOf_mkdirStore (st : Store) (id : String) :
    dirOf (mkdirStore st id) id = dirOf st id := by
  unfold mkdirStore
  split
  · rfl
  · rename_i hn
    have hnone : findDir st id = none := by
      cases hfd : findDir st id with
      | some d => simp [hfd] at hn
      | none => rfl
    simp [dirOf, findDir_append _ hnone, hnone, findDir]

theorem dirOf_setDir_self (st : Store) (id : String) (d : Dir) :
    dirOf (setDir st id d) id = d := by
  unfold dirOf
  rw [findDir_setDir_self]
  rfl

theorem dirOf_removeDir_self (st : Store) (id : String) :
    dirOf (removeDir st id) id = [] := by
  unfold dirOf
  rw [findDir_removeDir_self]
  rfl

theorem readFile_writeFileD_self (d : Dir) (n : String) (c : FileData) :
    readFile (writeFileD d n c) n = some c := by
  induction d with
  | nil => simp [writeFileD, readFile]
  | cons p rest ih =>
    obtain ⟨k, c0⟩ := p
    simp only [writeFileD]
    split
    · simp [readFile]
    · rename_i hk
      simp only [readFile, if_neg hk, ih]

theorem readFile_writeFileD_ne {d : Dir} {n m : String} (c : FileData)
    (h : m ≠ n) : readFile (writeFileD d n c) m = readFile d m := by
  have hne : ¬n = m := fun hh => h hh.symm
  induction d with
  | nil => simp [writeFileD, readFile, hne]
  | cons p rest ih =>
    obtain ⟨k, c0⟩ := p
    simp only [writeFileD]
    split
    · rename_i hk
      subst hk
      simp only [readFile, if_neg hne]
    · simp only [readFile, ih]

theorem readFile_writeFileD_isSome {d : Dir} {m : String} (n : String)
    (c : FileData) (h : (readFile d m).isSome = true) :
    (readFile (writeFileD d n c) m).isSome = true := by
  by_cases hm : m = n
  · subst hm
    simp [readFile_writeFileD_self]
  · rw [readFile_writeFileD_ne c hm]
    exact h

/-! ### Fetch-loop lemmas -/

theorem stepRole_snd (e : Env) (taskId fileAlias : String) (d d' : Dir)
    (f : Flags) :
    (stepRole e taskId fileAlias d f).2 =
      (stepRole e taskId fileAlias d' f).2 := by
  unfold stepRole
  split
  · rfl
  · cases e.fetch taskId fileAlias with
    | throws => rfl
    | ok r =>
      simp only
      repeat' split
      all_goals rfl

theorem stepRole_snd_congr (e : Env) (taskId fileAlias : String)
    {d d' : Dir} {f f' : Flags} (h : f = f') :
    (stepRole e taskId fileAlias d f).2 =
      (stepRole e taskId fileAlias d' f').2 := by
  subst h
  exact stepRole_snd e taskId fileAlias d d' f

theorem fetchLoop_snd (e : Env) (taskId : String) (d d' : Dir) (f : Flags) :
    (fetchLoop e taskId d f).2 = (fetchLoop e taskId d' f).2 := by
  unfold fetchLoop
  exact stepRole_snd_congr e taskId "image-large"
    (stepRole_snd_congr e taskId "image-small"
      (stepRole_snd e taskId "snapshot" d d' f))

/-- Names written by one loop step are derived from the role alias, so any
other file is untouched. -/
theorem stepRole_read_other (e : Env) (taskId fileAlias : String)
    (d : Dir) (f : Flags) {n : String} (h1 : n ≠ fileAlias ++ ".json")
    (h2 : n ≠ fileAlias ++ ".png") (h3 : n ≠ fileAlias) :
    readFile (stepRole e taskId fileAlias d f).1 n = readFile d n := by
  unfold stepRole
  split
  · rfl
  · cases e.fetch taskId fileAlias with
    | throws => rfl
    | ok r =>
      simp only
      repeat' split
      all_goals
        first
        | rfl
        | exact readFile_writeFileD_ne _ h1
        | exact readFile_writeFileD_ne _ h2
        | exact readFile_writeFileD_ne _ h3

/-- The loop never touches `metadata.json`. -/
theorem fetchLoop_read_meta (e : Env) (taskId : String) (d : Dir)
    (f : Flags) :
    readFile (fetchLoop e taskId d f).1 "metadata.json" =
      readFile d "metadata.json" := by
  unfold fetchLoop
  rw [stepRole_read_other e taskId "image-large" _ _ (by decide) (by decide)
    (by decide)]
  rw [stepRole_read_other e taskId "image-small" _ _ (by decide) (by decide)
    (by decide)]
  exact stepRole_read_other e taskId "snapshot" _ _ (by decide) (by decide)
    (by decide)

/-- The saved-flags of the loop state only claim files that really are in
the directory. -/
def filesInv (d : Dir) (f : Flags) : Prop :=
  (f.snapshotSaved = true → (readFile d "snapshot.json").isSome = true) ∧
  (f.imageSmallSaved = true →
    ((readFile d "image-small.png").isSome ||
      (readFile d "image-small").isSome) = true) ∧
  (f.imageLargeSaved = true →
    ((readFile d "image-large.png").isSome ||
      (readFile d "image-large").isSome) = true)

theorem filesInv_mono {d : Dir} {f : Flags} (n : String) (c : FileData)
    (h : filesInv d f) : filesInv (writeFileD d n c) f := by
  obtain ⟨hs, hm, hl⟩ := h
  refine ⟨fun hh => ?_, fun hh => ?_, fun hh => ?_⟩
  · exact readFile_writeFileD_isSome n c (hs hh)
  · rcases Bool.or_eq_true_iff.mp (hm hh) with h' | h'
    · exact Bool.or_eq_true_iff.mpr
        (Or.inl (readFile_writeFileD_isSome n c h'))
    · exact Bool.or_eq_true_iff.mpr
        (Or.inr (readFile_writeFileD_isSome n c h'))
  · rcases Bool.or_eq_true_iff.mp (hl hh) with h' | h'
    · exact Bool.or_eq_true_iff.mpr
        (Or.inl (readFile_writeFileD_isSome n c h'))
    · exact Bool.or_eq_true_iff.mpr
        (Or.inr (readFile_writeFileD_isSome n c h'))

theorem stepRole_filesInv (e : Env) (taskId fileAlias : String)
    {d : Dir} {f : Flags} (h : filesInv d f) :
    filesInv (stepRole e taskId fileAlias d f).1
      (stepRole e taskId fileAlias d f).2 := by
  obtain ⟨hs, hm, hl⟩ := h
  unfold stepRole
  split
  · exact ⟨hs, hm, hl⟩
  · cases e.fetch taskId fileAlias with
    | throws => exact ⟨hs, hm, hl⟩
    | ok r =>
      simp only
      repeat' split
      all_goals
        first
        | exact ⟨hs, hm, hl⟩
        | exact filesInv_mono _ _ ⟨hs, hm, hl⟩
        | (rename_i hal
           subst hal
           refine ⟨?_, ?_, ?_⟩ <;>
             first
             | (intro _
                simp [readFile_writeFileD_self]
                done)
             | exact (filesInv_mono _ _ ⟨hs, hm, hl⟩).1
             | exact (filesInv_mono _ _ ⟨hs, hm, hl⟩).2.1
             | exact (filesInv_mono _ _ ⟨hs, hm, hl⟩).2.2)

theorem fetchLoop_filesInv (e : Env) (taskId : String) {d : Dir} {f : Flags}
    (h : filesInv d f) :
    filesInv (fetchLoop e taskId d f).1 (fetchLoop e taskId d f).2 := by
  unfold fetchLoop
  exact stepRole_filesInv e taskId "image-large"
    (stepRole_filesInv e taskId "image-small"
      (stepRole_filesInv e taskId "snapshot" h))

theorem filesInv_init (d : Dir) : filesInv d initFlags := by
  refine ⟨fun h => ?_, fun h => ?_, fun h => ?_⟩ <;> simp [initFlags] at h

/-! ### processTask branch lemmas -/

theorem loopFlags_eq (e : Env) (taskId : String) (d : Dir) :
    (fetchLoop e taskId d initFlags).2 = loopFlags e taskId :=
  fetchLoop_snd e taskId d [] initFlags

theorem processTask_fail_rm (e : Env) (st : Store) (t : Task) (now : String)
    (hf : taskFailedB e t.id = true) (hr : e.rmOk t.id = true) :
    processTask e st t now =
      (removeDir (mkdirStore st t.id) t.id, none) := by
  unfold taskFailedB at hf
  simp only [processTask, loopFlags_eq]
  rw [if_pos hf, if_pos hr]

theorem processTask_fail_norm (e : Env) (st : Store) (t : Task)
    (now : String) (hf : taskFailedB e t.id = true)
    (hr : e.rmOk t.id = false) :
    processTask e st t now =
      (setDir (mkdirStore st t.id) t.id
        (fetchLoop e t.id (dirOf st t.id) initFlags).1, none) := by
  unfold taskFailedB at hf
  simp only [processTask, loopFlags_eq, dirOf_mkdirStore]
  rw [if_pos hf, if_neg (by simp [hr])]

theorem processTask_commit (e : Env) (st : Store) (t : Task) (now : String)
    (hf : taskFailedB e t.id = false)
    (hw : e.writeOk t.id "metadata.json" = true) :
    processTask e st t now =
      (setDir (mkdirStore st t.id) t.id
        (writeFileD (fetchLoop e t.id (dirOf st t.id) initFlags).1
          "metadata.json"
          (.jsonText (enhancedMetadata t
            (visualizationOf (loopFlags e t.id).snapshotData) now))),
       none) := by
  unfold taskFailedB at hf
  simp only [processTask, loopFlags_eq, dirOf_mkdirStore]
  rw [if_neg (by simp [hf]), if_pos hw]

theorem processTask_commit_metafail (e : Env) (st : Store) (t : Task)
    (now : String) (hf : taskFailedB e t.id = false)
    (hw : e.writeOk t.id "metadata.json" = false) :
    processTask e st t now =
      (setDir (mkdirStore st t.id) t.id
        (fetchLoop e t.id (dirOf st t.id) initFlags).1,
       some "metadata write failed") := by
  unfold taskFailedB at hf
  simp only [processTask, loopFlags_eq, dirOf_mkdirStore]
  rw [if_neg (by simp [hf]), if_neg (by simp [hw])]

theorem processTask_snd_none (e : Env) (st : Store) (t : Task) (now : String)
    (hw : e.writeOk t.id "metadata.json" = true) :
    (processTask e st t now).2 = none := by
  cases hf : taskFailedB e t.id with
  | true =>
    cases hr : e.rmOk t.id with
    | true => rw [processTask_fail_rm e st t now hf hr]
    | false => rw [processTask_fail_norm e st t now hf hr]
  | false => rw [processTask_commit e st t now hf hw]

theorem findDir_processTask_ne (e : Env) (st : Store) (t : Task)
    (now : String) {id : String} (h : id ≠ t.id) :
    findDir (processTask e st t now).1 id = findDir st id := by
  cases hf : taskFailedB e t.id with
  | true =>
    cases hr : e.rmOk t.id with
    | true =>
      rw [processTask_fail_rm e st t now hf hr]
      simp only
      rw [findDir_removeDir_ne h, findDir_mkdirStore_ne h]
    | false =>
      rw [processTask_fail_norm e st t now hf hr]
      simp only
      rw [findDir_setDir_ne _ h, findDir_mkdirStore_ne h]
  | false =>
    cases hw : e.writeOk t.id "metadata.json" with
    | true =>
      rw [processTask_commit e st t now hf hw]
      simp only
      rw [findDir_setDir_ne _ h, findDir_mkdirStore_ne h]
    | false =>
      rw [processTask_commit_metafail e st t now hf hw]
      simp only
      rw [findDir_setDir_ne _ h, findDir_mkdirStore_ne h]

theorem or_isSome_write {d : Dir} {a b : String} (n : String) (c : FileData)
    (h : ((readFile d a).isSome || (readFile d b).isSome) = true) :
    ((readFile (writeFileD d n c) a).isSome ||
      (readFile (writeFileD d n c) b).isSome) = true := by
  rcases Bool.or_eq_true_iff.mp h with h' | h'
  · exact Bool.or_eq_true_iff.mpr
      (Or.inl (readFile_writeFileD_isSome n c h'))
  · exact Bool.or_eq_true_iff.mpr
      (Or.inr (readFile_writeFileD_isSome n c h'))

/-- A task processed with a working `fs.rm` that does not throw leaves its
directory satisfying the completeness invariant. -/
theorem processTask_taskInv (e : Env) (st : Store) (t : Task) (now : String)
    (hr : e.rmOk t.id = true) (he : (processTask e st t now).2 = none) :
    taskInv (processTask e st t now).1 t.id := by
  cases hf : taskFailedB e t.id with
  | true =>
    rw [processTask_fail_rm e st t now hf hr]
    unfold taskInv
    simp only
    rw [dirOf_removeDir_self]
    rfl
  | false =>
    cases hw : e.writeOk t.id "metadata.json" with
    | false =>
      rw [processTask_commit_metafail e st t now hf hw] at he
      simp at he
    | true =>
      rw [processTask_commit e st t now hf hw]
      unfold taskInv
      simp only
      rw [dirOf_setDir_self]
      have hflags : (loopFlags e t.id).imageSmallSaved = true ∧
          (loopFlags e t.id).imageLargeSaved = true ∧
          (loopFlags e t.id).snapshotSaved = true := by
        unfold taskFailedB at hf
        simp only [Bool.or_eq_false_iff, Bool.not_eq_false'] at hf
        exact ⟨hf.1.1.2, hf.1.2, hf.2⟩
      obtain ⟨hSM, hLG, hSN⟩ := hflags
      have hinv := fetchLoop_filesInv e t.id
        (filesInv_init (dirOf st t.id)) (f := initFlags)
      rw [loopFlags_eq] at hinv
      obtain ⟨hs, hm, hl⟩ := hinv
      have f1 := readFile_writeFileD_isSome "metadata.json"
        (FileData.jsonText (enhancedMetadata t
          (visualizationOf (loopFlags e t.id).snapshotData) now)) (hs hSN)
      have f2 := or_isSome_write "metadata.json"
        (FileData.jsonText (enhancedMetadata t
          (visualizationOf (loopFlags e t.id).snapshotData) now)) (hm hSM)
      have f3 := or_isSome_write "metadata.json"
        (FileData.jsonText (enhancedMetadata t
          (visualizationOf (loopFlags e t.id).snapshotData) now)) (hl hLG)
      simp [hasMetaB, completeB, readFile_writeFileD_self, f1, f2, f3]

theorem saveSnapshots_cons_none {e : Env} {st : Store} {t : Task}
    {now : String} (rest : List Task)
    (h : (processTask e st t now).2 = none) :
    saveSnapshots e st (t :: rest) now =
      saveSnapshots e (processTask e st t now).1 rest now := by
  conv_lhs => unfold saveSnapshots
  cases hpt : processTask e st t now with
  | mk st' err =>
    cases err with
    | none => rfl
    | some e0 =>
      rw [hpt] at h
      simp at h

theorem saveSnapshots_cons_some {e : Env} {st : Store} {t : Task}
    {now : String} {err : String} (rest : List Task)
    (h : (processTask e st t now).2 = some err) :
    saveSnapshots e st (t :: rest) now =
      ((processTask e st t now).1, some err) := by
  conv_lhs => unfold saveSnapshots
  cases hpt : processTask e st t now with
  | mk st' e' =>
    cases e' with
    | none =>
      rw [hpt] at h
      simp at h
    | some e0 =>
      rw [hpt] at h
      have he0 : e0 = err := by simpa using h
      subst he0
      rfl

/-- Processing the head task cannot un-fail: if the whole run returned
without an exception, so did the head. -/
theorem saveSnapshots_head_none {e : Env} {st : Store} {t : Task}
    {now : String} {rest : List Task}
    (h : (saveSnapshots e st (t :: rest) now).2 = none) :
    (processTask e st t now).2 = none := by
  cases hpt : (processTask e st t now).2 with
  | none => rfl
  | some err =>
    rw [saveSnapshots_cons_some rest hpt] at h
    simp at h

/-- The completeness invariant for a fixed id survives processing any task
list, when removals succeed and no exception escapes. -/
theorem saveSnapshots_taskInv_pres (e : Env) (now : String) :
    ∀ (tasks : List Task) (st : Store) (id : String),
      (∀ i, e.rmOk i = true) → taskInv st id →
      (saveSnapshots e st tasks now).2 = none →
      taskInv (saveSnapshots e st tasks now).1 id := by
  intro tasks
  induction tasks with
  | nil =>
    intro st id _ h _
    exact h
  | cons t rest ih =>
    intro st id hr hinv he
    have hh := saveSnapshots_head_none he
    rw [saveSnapshots_cons_none rest hh] at he ⊢
    apply ih _ id hr _ he
    by_cases hid : id = t.id
    · subst hid
      exact processTask_taskInv e st t now (hr t.id) hh
    · unfold taskInv dirOf at hinv ⊢
      rw [findDir_processTask_ne e st t now hid]
      exact hinv

theorem saveSnapshots_mem_taskInv (e : Env) (now : String) :
    ∀ (tasks : List Task) (st : Store) (t : Task),
      t ∈ tasks → (∀ i, e.rmOk i = true) →
      (saveSnapshots e st tasks now).2 = none →
      taskInv (saveSnapshots e st tasks now).1 t.id := by
  intro tasks
  induction tasks with
  | nil =>
    intro st t hmem
    exact absurd hmem (List.not_mem_nil t)
  | cons t0 rest ih =>
    intro st t hmem hr he
    have hh := saveSnapshots_head_none he
    rw [saveSnapshots_cons_none rest hh] at he ⊢
    rcases List.mem_cons.mp hmem with rfl | hmem'
    · exact saveSnapshots_taskInv_pres e now rest _ t.id hr
        (processTask_taskInv e st t now (hr t.id) hh) he
    · exact ih _ t hmem' hr he

/-! ### Freshness lemmas for the local/remote consistency proof -/

theorem findDir_eq_none_of_keys {st : Store} {id : String}
    (h : ∀ p ∈ st, p.1 ≠ id) : findDir st id = none := by
  induction st with
  | nil => rfl
  | cons p rest ih =>
    obtain ⟨k, d⟩ := p
    have hk : k ≠ id := h (k, d) (List.mem_cons_self _ _)
    simp only [findDir, if_neg hk]
    exact ih (fun q hq => h q (List.mem_cons_of_mem _ hq))

theorem filterMap_cons_toList {α β : Type} (f : α → Option β) (x : α)
    (xs : List α) :
    List.filterMap f (x :: xs) = (f x).toList ++ List.filterMap f xs := by
  cases h : f x <;> simp [List.filterMap_cons, h]

/-- Processing a task whose directory does not yet exist just appends its
contribution to the store. -/
theorem processTask_fresh (e : Env) (st : Store) (t : Task) (now : String)
    (h : findDir st t.id = none) :
    processTask e st t now =
      (st ++ (processTask e [] t now).1, (processTask e [] t now).2) := by
  have hd : dirOf st t.id = [] := by
    unfold dirOf
    rw [h]
    rfl
  have hm : mkdirStore st t.id = st ++ [(t.id, [])] := mkdirStore_of_none h
  have hm0 : mkdirStore ([] : Store) t.id = [(t.id, [])] := rfl
  have hone : removeDir ([(t.id, [])] : Store) t.id = [] := by
    simp [removeDir]
  cases hf : taskFailedB e t.id with
  | true =>
    cases hrm : e.rmOk t.id with
    | true =>
      rw [processTask_fail_rm e st t now hf hrm,
        processTask_fail_rm e [] t now hf hrm]
      simp only [hm, hm0, removeDir_append, hone]
      rw [removeDir_of_none h]
    | false =>
      rw [processTask_fail_norm e st t now hf hrm,
        processTask_fail_norm e [] t now hf hrm]
      simp only [hm, hm0, hd]
      rw [setDir_append_fresh _ _ h]
      simp [setDir, dirOf, findDir]
  | false =>
    cases hw : e.writeOk t.id "metadata.json" with
    | true =>
      rw [processTask_commit e st t now hf hw,
        processTask_commit e [] t now hf hw]
      simp only [hm, hm0, hd]
      rw [setDir_append_fresh _ _ h]
      simp [setDir, dirOf, findDir]
    | false =>
      rw [processTask_commit_metafail e st t now hf hw,
        processTask_commit_metafail e [] t now hf hw]
      simp only [hm, hm0, hd]
      rw [setDir_append_fresh _ _ h]
      simp [setDir, dirOf, findDir]

theorem getProp_enhanced_id (t : Task) (v : Json) (now : String) :
    (enhancedMetadata t v now).getProp "id" = some (.str t.id) := by
  simp [enhancedMetadata, Json.getProp, lookupProp]

theorem getProp_enhanced_name (t : Task) (v : Json) (now : String) :
    (enhancedMetadata t v now).getProp "name" = some (.str t.name) := by
  simp [enhancedMetadata, Json.getProp, lookupProp]

/-- With truthy `id` and `name` fields the two endpoints build the same
entry out of a committed metadata record. -/
theorem refresh_local_entry_eq (t : Task) (v : Json) (now dirName : String)
    (hid : t.id ≠ "") (hname : t.name ≠ "") :
    localEntryOf dirName (enhancedMetadata t v now) =
      refreshEntryOf (enhancedMetadata t v now) := by
  unfold localEntryOf refreshEntryOf
  rw [getProp_enhanced_id, getProp_enhanced_name]
  simp [jsOr, jsTruthy, bne_iff_ne, hid, hname]

theorem localSnapshotsOf_append (a b : Store) :
    localSnapshotsOf (a ++ b) = localSnapshotsOf a ++ localSnapshotsOf b := by
  simp [localSnapshotsOf, List.filterMap_append]

theorem localSnapshotsOf_single (k : String) (d : Dir) :
    localSnapshotsOf [(k, d)] = ((metaParse d).map (localEntryOf k)).toList := by
  cases h : metaParse d <;> simp [localSnapshotsOf, h]

theorem setDir_mkdir_nil (id : String) (d : Dir) :
    setDir (mkdirStore [] id) id d = [(id, d)] := by
  simp [mkdirStore, findDir, setDir]

theorem findDir_single_self (k : String) (d : Dir) :
    findDir [(k, d)] k = some d := by
  simp [findDir]

theorem removeDir_mkdir_nil (id : String) :
    removeDir (mkdirStore [] id) id = [] := by
  simp [mkdirStore, findDir, removeDir]

/-- Head contribution of the consistency argument: processing one task from
the empty store yields a delta whose directories are all named `t.id`, and
whose local listing equals the refresh read-back contribution of `t`. -/
theorem processTask_empty_delta (e : Env) (t : Task) (now : String)
    (hid : t.id ≠ "") (hname : t.name ≠ "")
    (he : (processTask e [] t now).2 = none) :
    (∀ p ∈ (processTask e [] t now).1, p.1 = t.id) ∧
    localSnapshotsOf (processTask e [] t now).1 =
      (((findDir (processTask e [] t now).1 t.id).bind metaParse).map
        refreshEntryOf).toList := by
  cases hf : taskFailedB e t.id with
  | true =>
    cases hrm : e.rmOk t.id with
    | true =>
      rw [processTask_fail_rm e [] t now hf hrm]
      simp only [removeDir_mkdir_nil]
      simp [localSnapshotsOf, findDir]
    | false =>
      rw [processTask_fail_norm e [] t now hf hrm]
      have hmp : metaParse
          (fetchLoop e t.id (dirOf ([] : Store) t.id) initFlags).1 = none := by
        unfold metaParse
        rw [fetchLoop_read_meta]
        rfl
      simp only [setDir_mkdir_nil]
      refine ⟨?_, ?_⟩
      · intro p hp
        simp only [List.mem_singleton] at hp
        subst hp
        rfl
      · rw [localSnapshotsOf_single, findDir_single_self, hmp]
        simp [hmp]
  | false =>
    cases hw : e.writeOk t.id "metadata.json" with
    | false =>
      rw [processTask_commit_metafail e [] t now hf hw] at he
      simp at he
    | true =>
      rw [processTask_commit e [] t now hf hw]
      have hmp : metaParse (writeFileD
          (fetchLoop e t.id (dirOf ([] : Store) t.id) initFlags).1
          "metadata.json"
          (.jsonText (enhancedMetadata t
            (visualizationOf (loopFlags e t.id).snapshotData) now))) =
          some (enhancedMetadata t
            (visualizationOf (loopFlags e t.id).snapshotData) now) := by
        unfold metaParse
        rw [readFile_writeFileD_self]
        rfl
      simp only [setDir_mkdir_nil]
      refine ⟨?_, ?_⟩
      · intro p hp
        simp only [List.mem_singleton] at hp
        subst hp
        rfl
      · rw [localSnapshotsOf_single, findDir_single_self, hmp]
        have hentry := refresh_local_entry_eq t
          (visualizationOf (loopFlags e t.id).snapshotData) now t.id hid hname
        simp [hentry, hmp]

theorem refreshReadBack_cons (st : Store) (t : Task) (rest : List Task) :
    refreshReadBack st (t :: rest) =
      (((findDir st t.id).bind metaParse).map refreshEntryOf).toList ++
        refreshReadBack st rest := by
  unfold refreshReadBack
  exact filterMap_cons_toList _ t rest

/-- From a store containing no directory of any listed task, a normally
returning `saveSnapshots` run appends a delta whose local listing is
exactly the refresh read-back of the task list. -/
theorem saveSnapshots_consistency (e : Env) (now : String) :
    ∀ (tasks : List Task) (st : Store),
      (∀ t ∈ tasks, t.id ≠ "" ∧ t.name ≠ "") →
      (tasks.map Task.id).Nodup →
      (∀ t ∈ tasks, findDir st t.id = none) →
      (saveSnapshots e st tasks now).2 = none →
      ∃ Δ : Store,
        (saveSnapshots e st tasks now).1 = st ++ Δ ∧
        (∀ p ∈ Δ, ∃ t ∈ tasks, p.1 = t.id) ∧
        refreshReadBack (saveSnapshots e st tasks now).1 tasks =
          localSnapshotsOf Δ := by
  intro tasks
  induction tasks with
  | nil =>
    intro st _ _ _ _
    refine ⟨[], by simp [saveSnapshots], by simp, ?_⟩
    simp [refreshReadBack, localSnapshotsOf]
  | cons t rest ih =>
    intro st hnames hnodup hfresh he
    have hh := saveSnapshots_head_none he
    rw [saveSnapshots_cons_none rest hh] at he ⊢
    have hfr : findDir st t.id = none := hfresh t (List.mem_cons_self t rest)
    have hshift := processTask_fresh e st t now hfr
    have hh0 : (processTask e [] t now).2 = none := by
      rw [hshift] at hh
      simpa using hh
    obtain ⟨hid, hname⟩ := hnames t (List.mem_cons_self t rest)
    obtain ⟨hkeys, hloc⟩ := processTask_empty_delta e t now hid hname hh0
    have hst1 : (processTask e st t now).1 =
        st ++ (processTask e [] t now).1 := by
      rw [hshift]
    rw [List.map_cons] at hnodup
    have htid_notmem : t.id ∉ rest.map Task.id :=
      (List.nodup_cons.mp hnodup).1
    have hnodup' : (rest.map Task.id).Nodup := (List.nodup_cons.mp hnodup).2
    have hfresh' : ∀ t' ∈ rest,
        findDir (st ++ (processTask e [] t now).1) t'.id = none := by
      intro t' ht'
      have h1 : findDir st t'.id = none :=
        hfresh t' (List.mem_cons_of_mem _ ht')
      rw [findDir_append _ h1]
      apply findDir_eq_none_of_keys
      intro p hp hpe
      rw [hkeys p hp] at hpe
      exact htid_notmem (hpe ▸ List.mem_map_of_mem Task.id ht')
    rw [hst1] at he ⊢
    obtain ⟨Δr, hΔr1, hΔr2, hΔr3⟩ :=
      ih (st ++ (processTask e [] t now).1)
        (fun t' ht' => hnames t' (List.mem_cons_of_mem _ ht')) hnodup'
        hfresh' he
    refine ⟨(processTask e [] t now).1 ++ Δr, ?_, ?_, ?_⟩
    · rw [hΔr1, List.append_assoc]
    · intro p hp
      rcases List.mem_append.mp hp with hp' | hp'
      · exact ⟨t, List.mem_cons_self t rest, hkeys p hp'⟩
      · obtain ⟨t', ht', hpe⟩ := hΔr2 p hp'
        exact ⟨t', List.mem_cons_of_mem _ ht', hpe⟩
    · rw [refreshReadBack_cons, hΔr3, localSnapshotsOf_append]
      have hfind : findDir
          (saveSnapshots e (st ++ (processTask e [] t now).1) rest now).1
          t.id = findDir (processTask e [] t now).1 t.id := by
        rw [hΔr1, List.append_assoc, findDir_append _ hfr]
        cases hfd : findDir (processTask e [] t now).1 t.id with
        | some d => exact findDir_append_some _ hfd
        | none =>
          rw [findDir_append _ hfd]
          apply findDir_eq_none_of_keys
          intro p hp hpe
          obtain ⟨t', ht', hpe'⟩ := hΔr2 p hp
          rw [hpe'] at hpe
          exact htid_notmem (hpe ▸ List.mem_map_of_mem Task.id ht')
      rw [hfind]
      exact congrArg (· ++ localSnapshotsOf Δr) hloc.symm

/-- `saveSnapshots` can only throw out of a metadata write; with those
succeeding it always returns normally. -/
theorem saveSnapshots_snd_none (e : Env) (now : String) :
    ∀ (tasks : List Task) (st : Store),
      (∀ t ∈ tasks, e.writeOk t.id "metadata.json" = true) →
      (saveSnapshots e st tasks now).2 = none := by
  intro tasks
  induction tasks with
  | nil =>
    intro st _
    rfl
  | cons t rest ih =>
    intro st hw
    have h0 : (processTask e st t now).2 = none :=
      processTask_snd_none e st t now (hw t (List.mem_cons_self t rest))
    rw [saveSnapshots_cons_none rest h0]
    exact ih _ (fun tt htt => hw tt (List.mem_cons_of_mem t htt))

/-- Reduction of the refresh handler on a successful listing. -/
theorem getSnapshotsHandler_ok (e : Env) (tasks : List Task)
    (st0 : Option Store) (now : String) :
    getSnapshotsHandler e (.ok tasks) st0 now =
      (match saveSnapshots e (st0.getD []) tasks now with
       | (st1, some _) => ((500, []), some st1)
       | (st1, none) => ((200, refreshReadBack st1 tasks), some st1)) :=
  rfl

/-! ### Per-branch metadata lemmas -/

theorem processTask_dir_fail_rm (e : Env) (st : Store) (t : Task)
    (now : String) (hf : taskFailedB e t.id = true)
    (hrm : e.rmOk t.id = true) :
    dirOf (processTask e st t now).1 t.id = [] := by
  rw [processTask_fail_rm e st t now hf hrm]
  exact dirOf_removeDir_self _ _

theorem processTask_dir_fail_norm (e : Env) (st : Store) (t : Task)
    (now : String) (hf : taskFailedB e t.id = true)
    (hrm : e.rmOk t.id = false) :
    dirOf (processTask e st t now).1 t.id =
      (fetchLoop e t.id (dirOf st t.id) initFlags).1 := by
  rw [processTask_fail_norm e st t now hf hrm]
  exact dirOf_setDir_self _ _ _

theorem processTask_dir_metafail (e : Env) (st : Store) (t : Task)
    (now : String) (hf : taskFailedB e t.id = false)
    (hw : e.writeOk t.id "metadata.json" = false) :
    dirOf (processTask e st t now).1 t.id =
      (fetchLoop e t.id (dirOf st t.id) initFlags).1 := by
  rw [processTask_commit_metafail e st t now hf hw]
  exact dirOf_setDir_self _ _ _

theorem processTask_dir_commit (e : Env) (st : Store) (t : Task)
    (now : String) (hf : taskFailedB e t.id = false)
    (hw : e.writeOk t.id "metadata.json" = true) :
    dirOf (processTask e st t now).1 t.id =
      writeFileD (fetchLoop e t.id (dirOf st t.id) initFlags).1
        "metadata.json"
        (.jsonText (enhancedMetadata t
          (visualizationOf (loopFlags e t.id).snapshotData) now)) := by
  rw [processTask_commit e st t now hf hw]
  exact dirOf_setDir_self _ _ _

/-- In the commit branch the persisted metadata record is exactly the
enhanced metadata object. -/
theorem processTask_meta_commit (e : Env) (st : Store) (t : Task)
    (now : String) (hf : taskFailedB e t.id = false)
    (hw : e.writeOk t.id "metadata.json" = true) :
    readFile (dirOf (processTask e st t now).1 t.id) "metadata.json" =
      some (.jsonText (enhancedMetadata t
        (visualizationOf (loopFlags e t.id).snapshotData) now)) := by
  rw [processTask_dir_commit e st t now hf hw]
  exact readFile_writeFileD_self _ _ _

/-- In the non-committing branches that keep the directory, the metadata
record is whatever it was before the run. -/
theorem processTask_meta_fail_norm (e : Env) (st : Store) (t : Task)
    (now : String) (hf : taskFailedB e t.id = true)
    (hrm : e.rmOk t.id = false) :
    readFile (dirOf (processTask e st t now).1 t.id) "metadata.json" =
      readFile (dirOf st t.id) "metadata.json" := by
  rw [processTask_dir_fail_norm e st t now hf hrm]
  exact fetchLoop_read_meta _ _ _ _

theorem processTask_meta_metafail (e : Env) (st : Store) (t : Task)
    (now : String) (hf : taskFailedB e t.id = false)
    (hw : e.writeOk t.id "metadata.json" = false) :
    readFile (dirOf (processTask e st t now).1 t.id) "metadata.json" =
      readFile (dirOf st t.id) "metadata.json" := by
  rw [processTask_dir_metafail e st t now hf hw]
  exact fetchLoop_read_meta _ _ _ _

theorem getProp_enhanced_displayMode (t : Task) (v : Json) (now : String) :
    (enhancedMetadata t v now).getProp "displayMode" =
      some (.str (if includesJson SUPPORTED_CHARTS v then "snapshot"
        else "image")) := by
  simp [enhancedMetadata, Json.getProp, lookupProp]

/-- The metadata record is byte-identical across commit times except for
`lastUpdated`. -/
theorem stripLastUpdated_enhanced (t : Task) (v : Json) (now now' : String) :
    stripLastUpdated (enhancedMetadata t v now) =
      stripLastUpdated (enhancedMetadata t v now') := rfl

/-! ### Claim theorems -/

/-- C1: the claim says a non-success HTTP status of a role response that
does not throw immediately aborts the remaining fetch attempts of the task
and marks the transaction failed.  The source instead evaluates
`fileResponse.status = 200` (line 215) — an assignment whose value is
always truthy — so the code never detects a non-success status, although
its own else-branch comment says "Non-success HTTP status is a failure":
with all three roles responding HTTP 404 without throwing, no failure is
recorded, the remaining roles are still fetched and written, and the task
even commits a metadata record. -/
theorem c1_nonsuccess_status_not_failing :
    taskFailedB env404 "T1" = false ∧
    (loopFlags env404 "T1").hasFailures = false ∧
    (processTask env404 [] tT1 "NOW").2 = none ∧
    hasMetaB (dirOf (processTask env404 [] tT1 "NOW").1 "T1") = true ∧
    (readFile (dirOf (processTask env404 [] tT1 "NOW").1 "T1")
      "image-small.png").isSome = true ∧
    (readFile (dirOf (processTask env404 [] tT1 "NOW").1 "T1")
      "image-large.png").isSome = true := by
  decide

/-- C2 counterexample: two refreshes of the same task, both returning from
`saveSnapshots` normally, can leave all three artifact files on disk with
no metadata record, because a failed cleanup deletion keeps the leftover
`image-large.png` of the first run while the second run fails after saving
the other two artifacts. -/
theorem c2_counterexample :
    (saveSnapshots envRun1 [] [tT1] "t1").2 = none ∧
    (saveSnapshots envRun2 (saveSnapshots envRun1 [] [tT1] "t1").1 [tT1]
      "t2").2 = none ∧
    hasMetaB (dirOf (saveSnapshots envRun2
      (saveSnapshots envRun1 [] [tT1] "t1").1 [tT1] "t2").1 "T1") = false ∧
    completeB (dirOf (saveSnapshots envRun2
      (saveSnapshots envRun1 [] [tT1] "t1").1 [tT1] "t2").1 "T1") =
      true := by
  decide

/-- C2 (amended): provided every cleanup deletion succeeds, after a
normally returning `saveSnapshots` every processed task satisfies the
completeness invariant — a metadata record exists in its directory iff all
three artifact files exist on disk (and the commit branch writes the
record only after the three artifact files are in place). -/
theorem c2_completeness_inv (e : Env) (st : Store) (tasks : List Task)
    (now : String) (t : Task) (hmem : t ∈ tasks)
    (hr : ∀ id, e.rmOk id = true)
    (he : (saveSnapshots e st tasks now).2 = none) :
    taskInv (saveSnapshots e st tasks now).1 t.id :=
  saveSnapshots_mem_taskInv e now tasks st t hmem hr he

theorem c2_witness :
    tT1 ∈ [tT1] ∧
    (∀ id, envAllOk.rmOk id = true) ∧
    (saveSnapshots envAllOk [] [tT1] "NOW").2 = none ∧
    taskInv (saveSnapshots envAllOk [] [tT1] "NOW").1 tT1.id :=
  ⟨List.mem_cons_self tT1 [], fun _ => rfl, by decide,
    c2_completeness_inv envAllOk [] [tT1] "NOW" tT1
      (List.mem_cons_self tT1 []) (fun _ => rfl) (by decide)⟩

/-- C3 counterexample: for a task with a previously committed complete
snapshot, a failed re-fetch does not leave the directory equivalent to its
pre-transaction state: the code deletes the whole directory, discarding
the previously committed artifact files and metadata record. -/
theorem c3_counterexample :
    hasMetaB (dirOf stPreT1 "T1") = true ∧
    completeB (dirOf stPreT1 "T1") = true ∧
    taskFailedB envThrows "T1" = true ∧
    (processTask envThrows stPreT1 tT1 "NOW").2 = none ∧
    (findDir (processTask envThrows stPreT1 tT1 "NOW").1 "T1").isNone =
      true := by
  decide

/-- C3 (amended): for every task whose transaction fails, the code removes
the entire task directory (best-effort); when the removal succeeds the
directory afterwards contains none of the three artifact files and no
metadata record — it is fully removed whether or not it was newly created,
so a pre-existing committed snapshot is deleted rather than restored (and
when the removal fails, leftover files may remain). -/
theorem c3_failed_dir_removed (e : Env) (st : Store) (t : Task)
    (now : String) (hf : taskFailedB e t.id = true)
    (hr : e.rmOk t.id = true) :
    findDir (processTask e st t now).1 t.id = none ∧
    hasMetaB (dirOf (processTask e st t now).1 t.id) = false ∧
    completeB (dirOf (processTask e st t now).1 t.id) = false := by
  refine ⟨?_, ?_, ?_⟩
  · rw [processTask_fail_rm e st t now hf hr]
    exact findDir_removeDir_self _ _
  · rw [processTask_dir_fail_rm e st t now hf hr]
    rfl
  · rw [processTask_dir_fail_rm e st t now hf hr]
    rfl

theorem c3_witness :
    taskFailedB envThrows tT1.id = true ∧
    envThrows.rmOk tT1.id = true ∧
    (findDir (processTask envThrows stPreT1 tT1 "NOW").1 tT1.id = none ∧
     hasMetaB (dirOf (processTask envThrows stPreT1 tT1 "NOW").1 tT1.id) =
       false ∧
     completeB (dirOf (processTask envThrows stPreT1 tT1 "NOW").1 tT1.id) =
       false) :=
  ⟨by decide, rfl,
    c3_failed_dir_removed envThrows stPreT1 tT1 "NOW" (by decide) rfl⟩

/-- C4 counterexample: a failure confined to one task's transaction — the
write of that task's metadata record failing while every fetch and every
artifact write succeeded — makes the whole refresh respond 500, contrary
to the claim (the final `fs.writeFile` of `metadata.json` is outside every
`try` of `saveSnapshots`). -/
theorem c4_counterexample :
    taskFailedB envMetaFail "T1" = false ∧
    ((getSnapshotsHandler envMetaFail (.ok [tT1]) none "NOW").1).1 =
      500 := by
  decide

/-- C4 (amended): failures confined to fetching or persisting a task's
artifact files never make the refresh fail: when the remote listing
succeeds and every metadata write succeeds, `GET /get-snapshots` responds
200 regardless of per-task fetch or artifact-write failures; only a thrown
listing, or a metadata write failure escaping `saveSnapshots`, yields
500. -/
theorem c4_no_500_without_meta_failure (e : Env) (tasks : List Task)
    (st0 : Option Store) (now : String)
    (hw : ∀ t ∈ tasks, e.writeOk t.id "metadata.json" = true) :
    ((getSnapshotsHandler e (.ok tasks) st0 now).1).1 = 200 := by
  have hnone := saveSnapshots_snd_none e now tasks (st0.getD []) hw
  rw [getSnapshotsHandler_ok]
  split
  · rename_i st1 err heq
    rw [heq] at hnone
    simp at hnone
  · rfl

theorem c4_witness :
    (∀ t ∈ [tT1], envThrows.writeOk t.id "metadata.json" = true) ∧
    ((getSnapshotsHandler envThrows (.ok [tT1]) none "NOW").1).1 = 200 :=
  ⟨by decide,
    c4_no_500_without_meta_failure envThrows [tT1] none "NOW" (by decide)⟩

/-- C5 counterexample: with a stale directory in the store and an empty
current task list, a successful refresh responds 200 with no entries while
`GET /get-local-snapshots` still returns the stale entry, so the two
listings differ (stale directories are never garbage-collected and the
refresh read-back only visits current tasks). -/
theorem c5_counterexample :
    (getSnapshotsHandler envThrows (.ok []) (some stStale) "NOW").1 =
      (200, []) ∧
    ((getLocalSnapshotsHandler
      (getSnapshotsHandler envThrows (.ok [])
        (some stStale) "NOW").2).2).length = 1 :=
  ⟨rfl, rfl⟩

/-- C5 (amended): after a successful refresh that starts from an absent or
empty store root, with distinct nonempty task ids and nonempty task names,
`GET /get-local-snapshots` returns exactly the refresh response (which is
itself built by re-reading each task's persisted metadata record from disk,
the definition of `refreshReadBack` used by the handler); when the store
already holds directories of tasks outside the current listing, those
stale entries additionally appear in the local listing only. -/
theorem c5_local_matches_refresh (e : Env) (tasks : List Task)
    (now : String)
    (hnames : ∀ t ∈ tasks, t.id ≠ "" ∧ t.name ≠ "")
    (hnodup : (tasks.map Task.id).Nodup)
    (he : (saveSnapshots e [] tasks now).2 = none) :
    ((getSnapshotsHandler e (.ok tasks) none now).1).1 = 200 ∧
    getLocalSnapshotsHandler (getSnapshotsHandler e (.ok tasks) none now).2 =
      (getSnapshotsHandler e (.ok tasks) none now).1 := by
  obtain ⟨Δ, hΔ1, hΔ2, hΔ3⟩ := saveSnapshots_consistency e now tasks []
    hnames hnodup (fun _ _ => rfl) he
  rw [getSnapshotsHandler_ok]
  simp only [Option.getD_none]
  split
  · rename_i st1 err heq
    rw [heq] at he
    simp at he
  · rename_i st1 heq
    rw [heq] at hΔ1 hΔ3
    simp only at hΔ1 hΔ3
    constructor
    · rfl
    · unfold getLocalSnapshotsHandler
      simp only
      rw [hΔ3, hΔ1]
      simp

theorem c5_witness :
    (∀ t ∈ [tT1], t.id ≠ "" ∧ t.name ≠ "") ∧
    ([tT1].map Task.id).Nodup ∧
    (saveSnapshots envAllOk [] [tT1] "NOW").2 = none ∧
    (((getSnapshotsHandler envAllOk (.ok [tT1]) none "NOW").1).1 = 200 ∧
     getLocalSnapshotsHandler
         (getSnapshotsHandler envAllOk (.ok [tT1]) none "NOW").2 =
       (getSnapshotsHandler envAllOk (.ok [tT1]) none "NOW").1) :=
  ⟨by decide, by decide, by decide,
    c5_local_matches_refresh envAllOk [tT1] "NOW" (by decide) (by decide)
      (by decide)⟩

/-- C6: for every committed snapshot the persisted metadata record is the
enhanced metadata object, and its `displayMode` is `"snapshot"` exactly
when the visualization extracted from the snapshot JSON payload (default
`"unknown"`) is a member of the fixed `SUPPORTED_CHARTS` set, `"image"`
otherwise. -/
theorem c6_displayMode (e : Env) (st : Store) (t : Task) (now : String)
    (hf : taskFailedB e t.id = false)
    (hw : e.writeOk t.id "metadata.json" = true) :
    readFile (dirOf (processTask e st t now).1 t.id) "metadata.json" =
      some (.jsonText (enhancedMetadata t
        (visualizationOf (loopFlags e t.id).snapshotData) now)) ∧
    (enhancedMetadata t
        (visualizationOf (loopFlags e t.id).snapshotData) now).getProp
        "displayMode" =
      some (.str (if includesJson SUPPORTED_CHARTS
        (visualizationOf (loopFlags e t.id).snapshotData) then "snapshot"
        else "image")) :=
  ⟨processTask_meta_commit e st t now hf hw,
   getProp_enhanced_displayMode t _ now⟩

theorem c6_witness :
    (taskFailedB envAllOk tT1.id = false ∧
      envAllOk.writeOk tT1.id "metadata.json" = true ∧
      taskFailedB envMappng tT1.id = false ∧
      envMappng.writeOk tT1.id "metadata.json" = true) ∧
    (readFile (dirOf (processTask envAllOk [] tT1 "NOW").1 tT1.id)
        "metadata.json" =
      some (.jsonText (enhancedMetadata tT1
        (visualizationOf (loopFlags envAllOk tT1.id).snapshotData)
        "NOW")) ∧
     (enhancedMetadata tT1
        (visualizationOf (loopFlags envAllOk tT1.id).snapshotData)
        "NOW").getProp "displayMode" =
      some (.str (if includesJson SUPPORTED_CHARTS
        (visualizationOf (loopFlags envAllOk tT1.id).snapshotData)
        then "snapshot" else "image"))) ∧
    (readFile (dirOf (processTask envMappng [] tT1 "NOW").1 tT1.id)
        "metadata.json" =
      some (.jsonText (enhancedMetadata tT1
        (visualizationOf (loopFlags envMappng tT1.id).snapshotData)
        "NOW")) ∧
     (enhancedMetadata tT1
        (visualizationOf (loopFlags envMappng tT1.id).snapshotData)
        "NOW").getProp "displayMode" =
      some (.str (if includesJson SUPPORTED_CHARTS
        (visualizationOf (loopFlags envMappng tT1.id).snapshotData)
        then "snapshot" else "image"))) ∧
    visualizationOf (loopFlags envAllOk tT1.id).snapshotData =
      Json.str "kpi" ∧
    visualizationOf (loopFlags envMappng tT1.id).snapshotData =
      Json.str "mappng" ∧
    (enhancedMetadata tT1
      (visualizationOf (loopFlags envAllOk tT1.id).snapshotData)
      "NOW").getProp "displayMode" = some (.str "snapshot") ∧
    (enhancedMetadata tT1
      (visualizationOf (loopFlags envMappng tT1.id).snapshotData)
      "NOW").getProp "displayMode" = some (.str "image") :=
  ⟨⟨by decide, by decide, by decide, by decide⟩,
   c6_displayMode envAllOk [] tT1 "NOW" (by decide) (by decide),
   c6_displayMode envMappng [] tT1 "NOW" (by decide) (by decide),
   rfl, rfl, rfl, rfl⟩

/-- C7: fetching the same task twice with identical remote responses (the
same environment) yields metadata records that agree on every field except
`lastUpdated` — and since the record is persisted as deterministic
`JSON.stringify` output, agreement of the stored values models
byte-identical files. -/
theorem c7_refetch_idempotent (e : Env) (st : Store) (t : Task)
    (now1 now2 : String) (m1 m2 : Json)
    (h1 : readFile (dirOf (processTask e st t now1).1 t.id)
      "metadata.json" = some (.jsonText m1))
    (h2 : readFile
      (dirOf (processTask e (processTask e st t now1).1 t now2).1 t.id)
      "metadata.json" = some (.jsonText m2)) :
    stripLastUpdated m1 = stripLastUpdated m2 := by
  cases hf : taskFailedB e t.id with
  | true =>
    cases hrm : e.rmOk t.id with
    | true =>
      rw [processTask_dir_fail_rm e st t now1 hf hrm] at h1
      simp [readFile] at h1
    | false =>
      rw [processTask_meta_fail_norm e _ t now2 hf hrm,
        processTask_meta_fail_norm e st t now1 hf hrm] at h2
      rw [processTask_meta_fail_norm e st t now1 hf hrm] at h1
      rw [h1] at h2
      simp only [Option.some.injEq, FileData.jsonText.injEq] at h2
      rw [h2]
  | false =>
    cases hw : e.writeOk t.id "metadata.json" with
    | false =>
      rw [processTask_meta_metafail e _ t now2 hf hw,
        processTask_meta_metafail e st t now1 hf hw] at h2
      rw [processTask_meta_metafail e st t now1 hf hw] at h1
      rw [h1] at h2
      simp only [Option.some.injEq, FileData.jsonText.injEq] at h2
      rw [h2]
    | true =>
      rw [processTask_meta_commit e st t now1 hf hw] at h1
      rw [processTask_meta_commit e _ t now2 hf hw] at h2
      simp only [Option.some.injEq, FileData.jsonText.injEq] at h1 h2
      rw [← h1, ← h2]
      exact stripLastUpdated_enhanced t _ now1 now2

theorem c7_witness :
    readFile (dirOf (processTask envAllOk [] tT1 "A").1 tT1.id)
        "metadata.json" =
      some (.jsonText (enhancedMetadata tT1 (.str "kpi") "A")) ∧
    readFile (dirOf (processTask envAllOk
        (processTask envAllOk [] tT1 "A").1 tT1 "B").1 tT1.id)
        "metadata.json" =
      some (.jsonText (enhancedMetadata tT1 (.str "kpi") "B")) ∧
    stripLastUpdated (enhancedMetadata tT1 (.str "kpi") "A") =
      stripLastUpdated (enhancedMetadata tT1 (.str "kpi") "B") :=
  ⟨rfl, rfl, c7_refetch_idempotent envAllOk [] tT1 "A" "B" _ _ rfl rfl⟩

/-- C8: a subdirectory whose metadata record cannot be read or parsed is
excluded from the `GET /get-local-snapshots` result, while every sibling
directory is listed exactly as it would be without the corrupt entry; the
call itself still succeeds. -/
theorem c8_corrupt_entry_isolated (pre post : Store) (n : String) (d : Dir)
    (h : metaParse d = none) :
    getLocalSnapshotsHandler (some (pre ++ (n, d) :: post)) =
      getLocalSnapshotsHandler (some (pre ++ post)) := by
  unfold getLocalSnapshotsHandler
  simp [localSnapshotsOf, List.filterMap_append, List.filterMap_cons, h]

theorem c8_witness :
    metaParse badDir = none ∧
    getLocalSnapshotsHandler (some ([("A", goodDir "A" "Chart A")] ++
        ("BAD", badDir) :: [("B", goodDir "B" "Chart B")])) =
      getLocalSnapshotsHandler (some ([("A", goodDir "A" "Chart A")] ++
        [("B", goodDir "B" "Chart B")])) ∧
    ((getLocalSnapshotsHandler (some ([("A", goodDir "A" "Chart A")] ++
        ("BAD", badDir) :: [("B", goodDir "B" "Chart B")]))).2).length =
      2 :=
  ⟨rfl,
   c8_corrupt_entry_isolated [("A", goodDir "A" "Chart A")]
     [("B", goodDir "B" "Chart B")] "BAD" badDir rfl,
   rfl⟩

/-- C9: when the store root `public/snapshots` does not exist (`fs.access`
throws), `GET /get-local-snapshots` responds 200 with an empty list rather
than an error. -/
theorem c9_missing_root_empty : getLocalSnapshotsHandler none = (200, []) :=
  rfl

/-- C10 counterexample: for a directory `D1` whose metadata record lacks
`id` and `name`, the listed entry's name is `"Snapshot D1"`, not the
directory name `"D1"` that the claim says is used as the default for both
fields. -/
theorem c10_counterexample :
    (((getLocalSnapshotsHandler (some storeD1)).2.head?.bind
        (fun en => en.name)).bind jsonAsString) = some "Snapshot D1" ∧
    ¬ ("Snapshot D1" = "D1") := by
  decide

/-- C10 (amended): for every entry produced by the local listing from a
metadata record whose `id` or `name` field is absent (or otherwise falsy),
the directory name is the default for `id`, while the default for `name`
is the string `"Snapshot "` followed by the directory name. -/
theorem c10_defaults (n : String) (m : Json)
    (hid : jsTruthyOpt (m.getProp "id") = false)
    (hname : jsTruthyOpt (m.getProp "name") = false) :
    localSnapshotsOf [(n, [("metadata.json", .jsonText m)])] =
      [localEntryOf n m] ∧
    (localEntryOf n m).id = some (.str n) ∧
    (localEntryOf n m).name = some (.str ("Snapshot " ++ n)) := by
  refine ⟨?_, ?_, ?_⟩
  · simp [localSnapshotsOf, metaParse, readFile, parseJsonFile]
  · unfold localEntryOf
    cases hgp : m.getProp "id" with
    | none => simp [jsOr, hgp]
    | some v =>
      rw [hgp] at hid
      simp only [jsTruthyOpt] at hid
      simp [jsOr, hgp, hid]
  · unfold localEntryOf
    cases hgp : m.getProp "name" with
    | none => simp [jsOr, hgp]
    | some v =>
      rw [hgp] at hname
      simp only [jsTruthyOpt] at hname
      simp [jsOr, hgp, hname]

theorem c10_witness :
    jsTruthyOpt ((Json.obj []).getProp "id") = false ∧
    jsTruthyOpt ((Json.obj []).getProp "name") = false ∧
    (localSnapshotsOf [("D1", [("metadata.json", .jsonText (.obj []))])] =
      [localEntryOf "D1" (.obj [])] ∧
     (localEntryOf "D1" (.obj [])).id = some (.str "D1") ∧
     (localEntryOf "D1" (.obj [])).name =
       some (.str ("Snapshot " ++ "D1"))) :=
  ⟨by decide, by decide,
   c10_defaults "D1" (.obj []) (by decide) (by decide)⟩

end Snap
